import Mathlib

/-!
Verification development for the bandit-policy module `rolf/models.py`.

The Python module is shallowly embedded: machine floats are idealised as `ℚ`
where the code only performs field arithmetic and comparisons, and as `ℝ`
where the code applies `np.log` / `np.sqrt`.  External numeric primitives
(`scipy.optimize.minimize`, `shermanMorrison`, `matrix_sqrt`,
`scipy.linalg.inv`, `linucb_alpha`) are out of scope of the repository and are
modelled as abstract function parameters; the pseudo-random generator
(`np.random`) is modelled as an abstract state-passing structure `RNG` so that
seeding and draw order are explicit.  All list/matrix code mirrors the numpy
expressions used by the source line by line.
-/

/- ### Basic list linear algebra (numpy vector/matrix expressions) -/

/-- Dot product of two vectors, `v @ w` in numpy. -/
def dot {α : Type} [Mul α] [AddCommMonoid α] (v w : List α) : α :=
  (List.zipWith (fun a b => a * b) v w).sum

/-- Matrix-vector product `A @ v`, one dot product per row. -/
def matVec {α : Type} [Mul α] [AddCommMonoid α] (A : List (List α)) (v : List α) : List α :=
  A.map (fun row => dot row v)

/-- Transpose of a (regular) matrix, `A.T` in numpy. -/
def matTranspose {α : Type} [Zero α] (A : List (List α)) : List (List α) :=
  (List.range (A.headD []).length).map (fun j => A.map (fun row => row.getD j 0))

/-- Matrix product `A @ B`. -/
def matMul {α : Type} [Mul α] [AddCommMonoid α] (A B : List (List α)) : List (List α) :=
  A.map (fun row => (matTranspose B).map (fun col => dot row col))

/-- Componentwise vector sum. -/
def addVec {α : Type} [Add α] (v w : List α) : List α :=
  List.zipWith (fun a b => a + b) v w

/-- Scalar multiple of a vector, `r * v`. -/
def smulVec {α : Type} [Mul α] (c : α) (v : List α) : List α :=
  v.map (fun a => c * a)

/-- Componentwise matrix sum. -/
def matAdd {α : Type} [Add α] (A B : List (List α)) : List (List α) :=
  List.zipWith (fun r s => addVec r s) A B

/-- Scalar multiple of a matrix. -/
def smulMat {α : Type} [Mul α] (c : α) (A : List (List α)) : List (List α) :=
  A.map (fun row => smulVec c row)

/-- In-place increment `v[i] += c` of a numpy vector. -/
def setAdd {α : Type} [Add α] [Zero α] (v : List α) (i : ℕ) (c : α) : List α :=
  v.set i (v.getD i 0 + c)

/-- The identity matrix `np.identity n` over `ℚ`. -/
def identityMat (n : ℕ) : List (List ℚ) :=
  (List.range n).map (fun i => (List.range n).map (fun j => if i = j then (1 : ℚ) else 0))

/-- L1 norm `np.sum(np.abs(beta))`. -/
def l1norm (v : List ℚ) : ℚ :=
  (v.map (fun a => |a|)).sum

/-- Python list / numpy indexing semantics: a negative index counts from the
end of a length-`n` container. -/
def pyIdx (n : ℕ) (i : ℤ) : ℕ :=
  if 0 ≤ i then i.toNat else n - (-i).toNat

/-- Helper for `np.argmax`: running first-maximum scan. -/
def argmaxAux : ℕ → ℕ → ℚ → List ℚ → ℕ
  | _, bi, _, [] => bi
  | i, bi, bv, a :: rest => if bv < a then argmaxAux (i + 1) i a rest else argmaxAux (i + 1) bi bv rest

/-- `np.argmax` over a rational vector: the first index attaining the maximum. -/
def argmaxIdx : List ℚ → ℕ
  | [] => 0
  | a :: rest => argmaxAux 1 0 a rest

/-- `np.amax` / `np.max` over a rational vector. -/
def listMaxQ (l : List ℚ) : ℚ :=
  l.foldl max (l.headD 0)

/-- `np.max` over a real vector. -/
noncomputable def listMaxR (l : List ℝ) : ℝ :=
  l.foldl max (l.headD 0)

/- ### The matching ledger of the robust policies -/

/-- One entry of `self.matching`: the tuple
`(matched, context_matrix_or_None, pseudo_rewards_or_None, chosen_or_None, reward_or_None)`
stored by `RoLFLasso.update` / `RoLFRidge.update`. -/
structure Entry where
  matched : Bool
  data : Option (List (List ℚ))
  pseudo : Option (List ℚ)
  chosen : Option ℤ
  reward : Option ℚ
deriving DecidableEq

/-- Assignment `m[k] = e` on a Python dict modelled as an insertion-ordered
association list: an existing key is overwritten in place, a new key is
appended at the end. -/
def dictInsert (m : List (ℕ × Entry)) (k : ℕ) (e : Entry) : List (ℕ × Entry) :=
  if m.any (fun ke => ke.1 == k) then
    m.map (fun ke => if ke.1 = k then (k, e) else ke)
  else
    m ++ [(k, e)]

/-- The corrected pseudo-reward vector of a matched round:
`pseudo = X @ mu` followed by
`pseudo[chosen] += (1/p) * (reward - X[chosen, :] @ mu)`
(lines 419-420 / 425-426 / 559-560 / 565-566 of the source). -/
def currentPseudo (p : ℚ) (mu : List ℚ) (X : List (List ℚ)) (c : ℤ) (r : ℚ) : List ℚ :=
  let base := matVec X mu
  setAdd base (pyIdx base.length c) ((1 / p) * (r - dot (X.getD (pyIdx X.length c) []) mu))

/-- Body of the `for key in self.matching` loop of `update`: a matched entry
has its pseudo-reward vector recomputed from the fresh imputation estimator
`mu`; an unmatched entry is untouched.  (A matched entry with a missing
payload would crash the Python code; it is returned unchanged here and is
ruled out by the ledger invariant `LedgerWF`.) -/
def recomputePseudo (p : ℚ) (mu : List ℚ) (e : Entry) : Entry :=
  if e.matched then
    match e.data, e.chosen, e.reward with
    | some X, some c, some rw =>
        ⟨e.matched, e.data, some (currentPseudo p mu X c rw), e.chosen, e.reward⟩
    | _, _, _ => e
  else e

/-- Number of matched entries of a ledger. -/
def matchedCount (m : List (ℕ × Entry)) : ℕ :=
  (m.filter (fun ke => ke.2.matched)).length

/-- One summed residual term `np.sum((pseudo_rewards - X @ beta) ** 2)` of
`RoLFLasso.__main_loss`. -/
def residTerm (e : Entry) (beta : List ℚ) : ℚ :=
  (List.zipWith (fun ps xb => (ps - xb) ^ 2) (e.pseudo.getD []) (matVec (e.data.getD []) beta)).sum

/-- The list of residual terms summed by `RoLFLasso.__main_loss`: one term per
matched ledger entry (`matched_keys` / `residuals_list` in the source). -/
def mainLossTerms (m : List (ℕ × Entry)) (beta : List ℚ) : List ℚ :=
  (m.filter (fun ke => ke.2.matched)).map (fun ke => residTerm ke.2 beta)

/-- `RoLFLasso.__main_loss`: summed residuals over matched entries plus the L1
penalty. -/
def mainLoss (m : List (ℕ × Entry)) (lam : ℚ) (beta : List ℚ) : ℚ :=
  (mainLossTerms m beta).sum + lam * l1norm beta

/-- Well-formedness of one ledger entry: the payload is non-null exactly when
the matched flag is set. -/
def EntryWF (e : Entry) : Prop :=
  e.matched = true ↔
    (e.data.isSome = true ∧ e.pseudo.isSome = true ∧ e.chosen.isSome = true ∧ e.reward.isSome = true)

instance (e : Entry) : Decidable (EntryWF e) := by
  unfold EntryWF; infer_instance

/-- Well-formedness of the whole matching ledger. -/
def LedgerWF (m : List (ℕ × Entry)) : Prop :=
  ∀ ke ∈ m, EntryWF ke.2

instance (m : List (ℕ × Entry)) : Decidable (LedgerWF m) := by
  unfold LedgerWF; infer_instance

/- ### Abstract external primitives -/

/-- Result object of `scipy.optimize.minimize`: the final iterate `.x` and the
convergence flag `.success`.  The source reads only `.x`. -/
structure OptResult where
  x : List ℚ
  success : Bool

/-- External primitives consumed by `RoLFLasso`: `matrix_sqrt` from `util` and
the two `scipy.optimize.minimize` calls (on `__imputation_loss` with arguments
`(X, y, lam)`, and on `__main_loss` with arguments `(lam, matching)`). -/
structure LassoExt where
  matrixSqrt : List (List ℚ) → List (List ℚ)
  minimizeImpute : List ℚ → List (List ℚ) → List ℚ → ℚ → OptResult
  minimizeMain : List ℚ → ℚ → List (ℕ × Entry) → OptResult

/-- External primitives consumed by `RoLFRidge`: `shermanMorrison` from `util`
and `scipy.linalg.inv`. -/
structure RidgeExt where
  sherman : List (List ℚ) → List ℚ → List (List ℚ)
  inv : List (List ℚ) → List (List ℚ)

/-- External solver consumed by `LassoBandit.update` / `DRLassoBandit.update`:
`scipy.optimize.minimize` on `__lasso_loss` with arguments `(X, y, lam)`;
`lam` is real because `LassoBandit` scales it by `np.sqrt(...)`. -/
structure SolverExt where
  minimize : List ℚ → List (List ℚ) → List ℚ → ℝ → OptResult

/-- The process-wide numpy generator, abstracted: `seedFn n` is the state after
`np.random.seed(n)`; `choiceP g dist` draws one index from a categorical
distribution (`np.random.choice(range(K), size=1, p=dist)`); `choiceU g K`
draws uniformly from `np.arange(K)`. -/
structure RNG (G : Type) where
  seedFn : ℕ → G
  choiceP : G → List ℝ → ℤ × G
  choiceU : G → ℕ → ℕ × G

/- ### The matching-draw loop of the robust policies -/

/-- Python `int()` applied to a float: truncation toward zero. -/
noncomputable def pyInt (x : ℝ) : ℤ :=
  if 0 ≤ x then ⌊x⌋ else ⌈x⌉

/-- `max_iter = int(np.log((t + 1) ** 2 / delta) / np.log(1 / p))` computed by
`choose` after `self.t` has been incremented to the current round `t`. -/
noncomputable def rolfMaxIter (t : ℕ) (delta p : ℚ) : ℤ :=
  pyInt (Real.log (((t : ℝ) + 1) ^ 2 / (delta : ℝ)) / Real.log (1 / (p : ℝ)))

/-- The pseudo-action distribution: mass `p` on `a_hat`, `(1-p)/(K-1)`
elsewhere. -/
noncomputable def pseudoDist (K : ℕ) (a_hat : ℕ) (p : ℚ) : List ℝ :=
  (List.range K).map (fun i => if i = a_hat then (p : ℝ) else (1 - (p : ℝ)) / ((K : ℝ) - 1))

/-- The chosen-action distribution at round `t`: mass `1 - 1/sqrt t` on
`a_hat`, `(1/sqrt t)/(K-1)` elsewhere. -/
noncomputable def chosenDist (K : ℕ) (a_hat : ℕ) (t : ℕ) : List ℝ :=
  (List.range K).map
    (fun i => if i = a_hat then 1 - 1 / Real.sqrt (t : ℝ) else (1 / Real.sqrt (t : ℝ)) / ((K : ℝ) - 1))

/-- One iteration of the matching loop: draw the pseudo action, then the
chosen action, from the threaded generator state. -/
def drawPair {G : Type} (rng : RNG G) (pdist cdist : List ℝ) (g : G) : ℤ × ℤ × G :=
  let pg := rng.choiceP g pdist
  let cg := rng.choiceP pg.2 cdist
  (pg.1, cg.1, cg.2)

/-- Generator state after `j` complete draw pairs starting from `g0`. -/
def gAt {G : Type} (rng : RNG G) (pdist cdist : List ℝ) (g0 : G) : ℕ → G
  | 0 => g0
  | j + 1 => (drawPair rng pdist cdist (gAt rng pdist cdist g0 j)).2.2

/-- The pair of actions produced by the `j`-th attempt of the matching loop
(counting from 0) when drawing starts from `g0`. -/
def pairAt {G : Type} (rng : RNG G) (pdist cdist : List ℝ) (g0 : G) (j : ℕ) : ℤ × ℤ :=
  ((drawPair rng pdist cdist (gAt rng pdist cdist g0 j)).1,
   (drawPair rng pdist cdist (gAt rng pdist cdist g0 j)).2.1)

/-- The `while (pseudo_action != chosen_action) and (count <= max_iter)` loop,
written with a fuel argument; `rolfSample` supplies fuel strictly larger than
the number of iterations the guard permits, so the fuel never runs out. -/
def sampleGo {G : Type} (rng : RNG G) (pdist cdist : List ℝ) (M : ℤ) :
    ℕ → ℤ → ℤ → ℕ → G → ℤ × ℤ × ℕ × G
  | 0, p, c, n, g => (p, c, n, g)
  | fuel + 1, p, c, n, g =>
    if p ≠ c ∧ (n : ℤ) ≤ M then
      let dp := drawPair rng pdist cdist g
      sampleGo rng pdist cdist M fuel dp.1 dp.2.1 (n + 1) dp.2.2
    else (p, c, n, g)

/-- The matching loop of `choose`, started from the sentinel values
`pseudo_action = -1`, `chosen_action = -2`, `count = 0`.  Returns
`(pseudo_action, chosen_action, count, generator)`. -/
def rolfSample {G : Type} (rng : RNG G) (pdist cdist : List ℝ) (M : ℤ) (g : G) :
    ℤ × ℤ × ℕ × G :=
  sampleGo rng pdist cdist M ((M + 1).toNat + 1) (-1) (-2) 0 g

/- ### RoLFLasso -/

/-- Instance state of `RoLFLasso`.  The fields `a_hat`, `pseudo_action` and
`chosen_action` are created by the first `choose` call in Python; they are
initialised to placeholder values here. -/
structure RoLFLassoState where
  t : ℕ
  d : ℕ
  K : ℕ
  mu_hat : List ℚ
  mu_check : List ℚ
  impute_prev : List ℚ
  main_prev : List ℚ
  sigma : ℚ
  p : ℚ
  delta : ℚ
  action_history : List ℤ
  reward_history : List ℚ
  matching : List (ℕ × Entry)
  random_state : ℕ
  explore : Bool
  init_explore : ℕ
  a_hat : ℕ
  pseudo_action : ℤ
  chosen_action : ℤ

/-- `RoLFLasso.__init__`.  The constructor body performs only assignments and
contains no assert or raise, so construction always succeeds; the `Except`
return type makes that fact statable. -/
def rolfLassoInit (d arms : ℕ) (p delta sigma : ℚ) (random_state : ℕ)
    (explore : Bool) (init_explore : ℕ) : Except String RoLFLassoState :=
  Except.ok
    { t := 0, d := d, K := arms
      mu_hat := List.replicate arms 0, mu_check := List.replicate arms 0
      impute_prev := List.replicate arms 0, main_prev := List.replicate arms 0
      sigma := sigma, p := p, delta := delta
      action_history := [], reward_history := [], matching := []
      random_state := random_state, explore := explore, init_explore := init_explore
      a_hat := 0, pseudo_action := 0, chosen_action := 0 }

/-- The greedy/exploratory reference action `a_hat` computed at the top of
`RoLFLasso.choose` for round `st.t + 1`.  Note that the exploratory draw
(`np.random.choice(np.arange(K))`) happens before the per-round reseeding and
therefore consumes the ambient generator state `g`. -/
def rolfAhatL {G : Type} (rng : RNG G) (st : RoLFLassoState) (x : List (List ℚ)) (g : G) : ℕ :=
  if st.explore then
    if st.t + 1 > st.init_explore then argmaxIdx (matVec x st.mu_hat)
    else (rng.choiceU g st.K).1
  else argmaxIdx (matVec x st.mu_hat)

/-- `RoLFLasso.choose`: increment the round, compute `a_hat`, build the two
categorical distributions, reseed with `random_state + t`, run the matching
loop, record the pseudo/chosen actions and append the chosen action to
`action_history`.  Returns `(chosen_action, state, generator)`. -/
noncomputable def rolfLassoChoose {G : Type} (rng : RNG G) (st : RoLFLassoState)
    (x : List (List ℚ)) (g : G) : ℤ × RoLFLassoState × G :=
  let t := st.t + 1
  let a_hat := rolfAhatL rng st x g
  let res := rolfSample rng (pseudoDist st.K a_hat st.p) (chosenDist st.K a_hat t)
    (rolfMaxIter t st.delta st.p) (rng.seedFn (st.random_state + t))
  (res.2.1,
   { st with
       t := t
       a_hat := a_hat
       pseudo_action := res.1
       chosen_action := res.2.1
       action_history := st.action_history ++ [res.2.1] },
   res.2.2.2)

/-- The refitted imputation estimator of `RoLFLasso.update`:
`scipy.optimize.minimize(__imputation_loss, gram_sqrt @ impute_prev,
args=(x[action_history, :], reward_history, lam_impute)).x` with
`lam_impute = p` (the reward history already includes the current reward). -/
def rolfLassoImputeEst (ext : LassoExt) (st : RoLFLassoState) (x : List (List ℚ)) (r : ℚ) :
    List ℚ :=
  (ext.minimizeImpute
    (matVec (ext.matrixSqrt (matMul (matTranspose x) x)) st.impute_prev)
    (st.action_history.map (fun a => x.getD (pyIdx x.length a) []))
    (st.reward_history ++ [r])
    st.p).x

/-- The matching ledger after a matched round of `RoLFLasso.update`: every
existing entry passes through the recomputation loop, then the current round's
corrected entry is stored under key `st.t`. -/
def rolfLassoMatchingNext (ext : LassoExt) (st : RoLFLassoState) (x : List (List ℚ)) (r : ℚ) :
    List (ℕ × Entry) :=
  dictInsert
    (st.matching.map (fun ke => (ke.1, recomputePseudo st.p (rolfLassoImputeEst ext st x r) ke.2)))
    st.t
    ⟨decide (st.pseudo_action = st.chosen_action), some x,
     some (currentPseudo st.p (rolfLassoImputeEst ext st x r) x st.chosen_action r),
     some st.chosen_action, some r⟩

/-- The refitted main estimator of `RoLFLasso.update`:
`scipy.optimize.minimize(__main_loss, gram_sqrt @ main_prev,
args=(lam_main, matching)).x` with `lam_main = p`, run on the ledger after the
current round's entry has been stored. -/
def rolfLassoMainEst (ext : LassoExt) (st : RoLFLassoState) (x : List (List ℚ)) (r : ℚ) :
    List ℚ :=
  (ext.minimizeMain
    (matVec (ext.matrixSqrt (matMul (matTranspose x) x)) st.main_prev)
    st.p
    (rolfLassoMatchingNext ext st x r)).x

/-- `RoLFLasso.update`: append the reward; on a matched round refit the
imputation estimator, recompute all matched pseudo-rewards, store the current
round's entry and refit the main estimator; on an unmatched round only store a
payload-free entry. -/
def rolfLassoUpdate (ext : LassoExt) (st : RoLFLassoState) (x : List (List ℚ)) (r : ℚ) :
    RoLFLassoState :=
  if st.pseudo_action = st.chosen_action then
    { st with
        reward_history := st.reward_history ++ [r]
        matching := rolfLassoMatchingNext ext st x r
        mu_hat := rolfLassoMainEst ext st x r
        mu_check := rolfLassoImputeEst ext st x r }
  else
    { st with
        reward_history := st.reward_history ++ [r]
        matching := dictInsert st.matching st.t
          ⟨decide (st.pseudo_action = st.chosen_action), none, none, none, none⟩ }

/- ### RoLFRidge -/

/-- Instance state of `RoLFRidge`. -/
structure RoLFRidgeState where
  t : ℕ
  d : ℕ
  K : ℕ
  mu_hat : List ℚ
  mu_check : List ℚ
  sigma : ℚ
  p : ℚ
  delta : ℚ
  matching : List (ℕ × Entry)
  Vinv_impute : List (List ℚ)
  xty_impute : List ℚ
  random_state : ℕ
  explore : Bool
  init_explore : ℕ
  a_hat : ℕ
  pseudo_action : ℤ
  chosen_action : ℤ

/-- `RoLFRidge.__init__`; like `RoLFLasso.__init__` it contains no validation,
so construction always succeeds. -/
def rolfRidgeInit (d arms : ℕ) (p delta sigma : ℚ) (random_state : ℕ)
    (explore : Bool) (init_explore : ℕ) : Except String RoLFRidgeState :=
  Except.ok
    { t := 0, d := d, K := arms
      mu_hat := List.replicate arms 0, mu_check := List.replicate arms 0
      sigma := sigma, p := p, delta := delta
      matching := []
      Vinv_impute := smulMat p (identityMat arms), xty_impute := List.replicate arms 0
      random_state := random_state, explore := explore, init_explore := init_explore
      a_hat := 0, pseudo_action := 0, chosen_action := 0 }

/-- The reference action of `RoLFRidge.choose` (same shape as `rolfAhatL`). -/
def rolfAhatR {G : Type} (rng : RNG G) (st : RoLFRidgeState) (x : List (List ℚ)) (g : G) : ℕ :=
  if st.explore then
    if st.t + 1 > st.init_explore then argmaxIdx (matVec x st.mu_hat)
    else (rng.choiceU g st.K).1
  else argmaxIdx (matVec x st.mu_hat)

/-- `RoLFRidge.choose` (identical to `RoLFLasso.choose` except that no
`action_history` is kept). -/
noncomputable def rolfRidgeChoose {G : Type} (rng : RNG G) (st : RoLFRidgeState)
    (x : List (List ℚ)) (g : G) : ℤ × RoLFRidgeState × G :=
  let t := st.t + 1
  let a_hat := rolfAhatR rng st x g
  let res := rolfSample rng (pseudoDist st.K a_hat st.p) (chosenDist st.K a_hat t)
    (rolfMaxIter t st.delta st.p) (rng.seedFn (st.random_state + t))
  (res.2.1,
   { st with t := t, a_hat := a_hat, pseudo_action := res.1, chosen_action := res.2.1 },
   res.2.2.2)

/-- The refitted imputation estimator of `RoLFRidge.update`:
`shermanMorrison(Vinv_impute, x[chosen]) @ (xty_impute + r * x[chosen])`. -/
def rolfRidgeImputeEst (ext : RidgeExt) (st : RoLFRidgeState) (x : List (List ℚ)) (r : ℚ) :
    List ℚ :=
  let xc := x.getD (pyIdx x.length st.chosen_action) []
  matVec (ext.sherman st.Vinv_impute xc) (addVec st.xty_impute (smulVec r xc))

/-- The matching ledger after a matched round of `RoLFRidge.update`. -/
def rolfRidgeMatchingNext (ext : RidgeExt) (st : RoLFRidgeState) (x : List (List ℚ)) (r : ℚ) :
    List (ℕ × Entry) :=
  dictInsert
    (st.matching.map (fun ke => (ke.1, recomputePseudo st.p (rolfRidgeImputeEst ext st x r) ke.2)))
    st.t
    ⟨decide (st.pseudo_action = st.chosen_action), some x,
     some (currentPseudo st.p (rolfRidgeImputeEst ext st x r) x st.chosen_action r),
     some st.chosen_action, some r⟩

/-- Accumulated Gram matrix of `RoLFRidge.__main_estimation`:
identity plus `X.T @ X` summed over matched entries. -/
def ridgeMainInv (K : ℕ) (m : List (ℕ × Entry)) : List (List ℚ) :=
  (m.filter (fun ke => ke.2.matched)).foldl
    (fun acc ke => matAdd acc (matMul (matTranspose (ke.2.data.getD [])) (ke.2.data.getD [])))
    (identityMat K)

/-- Accumulated score vector of `RoLFRidge.__main_estimation`:
`X.T @ pseudo_rewards` summed over matched entries. -/
def ridgeMainScore (K : ℕ) (m : List (ℕ × Entry)) : List ℚ :=
  (m.filter (fun ke => ke.2.matched)).foldl
    (fun acc ke => addVec acc (matVec (matTranspose (ke.2.data.getD [])) (ke.2.pseudo.getD [])))
    (List.replicate K 0)

/-- `RoLFRidge.update`. -/
def rolfRidgeUpdate (ext : RidgeExt) (st : RoLFRidgeState) (x : List (List ℚ)) (r : ℚ) :
    RoLFRidgeState :=
  if st.pseudo_action = st.chosen_action then
    let xc := x.getD (pyIdx x.length st.chosen_action) []
    let matching2 := rolfRidgeMatchingNext ext st x r
    { st with
        Vinv_impute := ext.sherman st.Vinv_impute xc
        xty_impute := addVec st.xty_impute (smulVec r xc)
        matching := matching2
        mu_hat := matVec (ext.inv (ridgeMainInv st.K matching2)) (ridgeMainScore st.K matching2)
        mu_check := rolfRidgeImputeEst ext st x r }
  else
    { st with
        matching := dictInsert st.matching st.t
          ⟨decide (st.pseudo_action = st.chosen_action), none, none, none, none⟩ }

/- ### Full round loops of the robust policies -/

/-- Feed a list of `(context, reward)` rounds to a `RoLFLasso` instance
through the `choose`/`update` protocol; record per round the returned action
and the match indicator. -/
noncomputable def rolfLassoRun {G : Type} (rng : RNG G) (ext : LassoExt) :
    RoLFLassoState → G → List (List (List ℚ) × ℚ) → List (ℤ × Bool)
  | _, _, [] => []
  | st, g, xr :: rest =>
    let res := rolfLassoChoose rng st xr.1 g
    (res.1, decide (res.2.1.pseudo_action = res.2.1.chosen_action)) ::
      rolfLassoRun rng ext (rolfLassoUpdate ext res.2.1 xr.1 xr.2) res.2.2 rest

/-- Round loop for `RoLFRidge`. -/
noncomputable def rolfRidgeRun {G : Type} (rng : RNG G) (ext : RidgeExt) :
    RoLFRidgeState → G → List (List (List ℚ) × ℚ) → List (ℤ × Bool)
  | _, _, [] => []
  | st, g, xr :: rest =>
    let res := rolfRidgeChoose rng st xr.1 g
    (res.1, decide (res.2.1.pseudo_action = res.2.1.chosen_action)) ::
      rolfRidgeRun rng ext (rolfRidgeUpdate ext res.2.1 xr.1 xr.2) res.2.2 rest

/- ### ETC (the construction-time validation example) -/

/-- Instance state of `ETC` (explore-then-commit). -/
structure ETCState where
  explore : ℕ
  arms : ℕ
  initial : ℚ
  counts : List ℚ
  values : List ℚ
  t : ℕ

/-- `ETC.__init__` with its `assert explore * arms <= horizon`. -/
def etcInit (arms explore horizon : ℕ) (initial : ℚ) : Except String ETCState :=
  if explore * arms ≤ horizon then
    Except.ok
      { explore := explore, arms := arms, initial := initial
        counts := List.replicate arms 0
        values := List.replicate arms initial, t := 0 }
  else Except.error "Explore must be less than or equal to horizon"

/-- Constructor outcome check: did construction succeed? -/
def exceptOk {α : Type} : Except String α → Bool
  | Except.ok _ => true
  | Except.error _ => false

/- ### LinUCB -/

/-- Instance state of `LinUCB`. -/
structure LinUCBState where
  d : ℕ
  xty : List ℝ
  Vinv : List (List ℝ)
  theta_hat : List ℝ
  delta : ℚ
  t : ℕ
  chosen_action : ℕ

open Classical in
/-- `LinUCB.choose`: increments the round, recomputes the ridge estimator
`theta_hat = Vinv @ xty` in place, scores every arm, and picks uniformly among
the maximisers via the ambient generator (abstracted as `pick`).
`alphaFn` abstracts the external `linucb_alpha`. -/
noncomputable def linUCBChoose (alphaFn : ℚ → ℝ) (pick : List ℕ → ℕ)
    (st : LinUCBState) (x : List (List ℝ)) : ℕ × LinUCBState :=
  let t := st.t + 1
  let theta_hat := matVec st.Vinv st.xty
  let alpha := alphaFn st.delta * Real.sqrt (Real.log (t : ℝ))
  let expected := matVec x theta_hat
  let width := x.map (fun xi => Real.sqrt (dot xi (matVec st.Vinv xi)))
  let ucb := List.zipWith (fun e w => e + alpha * w) expected width
  let mx := listMaxR ucb
  let argmax := (List.range ucb.length).filter (fun i => decide (ucb.getD i 0 = mx))
  let ca := pick argmax
  (ca, { st with t := t, theta_hat := theta_hat, chosen_action := ca })

/- ### LassoBandit -/

/-- Instance state of `LassoBandit`.  `set` (the forced-sampling window) is
not assigned by `__init__` in Python; it is first assigned at round 1, before
any read, so the empty list is a faithful placeholder.  The unused
`sklearn.linear_model.Lasso` object `lasso_t` is omitted. -/
structure LassoBanditState where
  q : ℕ
  h : ℚ
  lam1 : ℚ
  lam2 : ℚ
  arms : ℕ
  horizon : ℕ
  d : ℕ
  t : ℕ
  n : ℕ
  Tx : ℕ → List (List ℚ)
  Sx : ℕ → List (List ℚ)
  Tr : ℕ → List ℚ
  Sr : ℕ → List ℚ
  beta_t : List (List ℚ)
  beta_s : List (List ℚ)
  set : List ℕ
  action : ℕ

/-- `LassoBandit.__init__`. -/
def lassoBanditInit (arms horizon d q : ℕ) (h lam1 lam2 : ℚ) : LassoBanditState :=
  { q := q, h := h, lam1 := lam1, lam2 := lam2
    arms := arms, horizon := horizon, d := d
    t := 0, n := 0
    Tx := fun _ => [], Sx := fun _ => [], Tr := fun _ => [], Sr := fun _ => []
    beta_t := List.replicate arms (List.replicate d 0)
    beta_s := List.replicate arms (List.replicate d 0)
    set := [], action := 0 }

/-- `flag = (((2 ** n) - 1) * arms * q) + 1` of `LassoBandit.choose`. -/
def lassoFlag (n arms q : ℕ) : ℕ :=
  ((2 ^ n - 1) * arms * q) + 1

/-- `np.arange(t, t + len)`: the forced-sampling window opened at round `t`. -/
def forcedWindow (t len : ℕ) : List ℕ :=
  List.range' t len

/-- `LassoBandit.choose`:  open a new forced window when `t` hits the flag;
on a forced round take the scheduled arm and log the context in `Tx`;
otherwise pre-filter arms by the forced-sample estimator and break ties by
the all-sample estimator; in both cases log the context in `Sx`. -/
def lassoBanditChoose (st : LassoBanditState) (x : List ℚ) : ℕ × LassoBanditState :=
  let t := st.t + 1
  let fl := lassoFlag st.n st.arms st.q
  let sset := if t = fl then forcedWindow t (st.q * st.arms) else st.set
  let n' := if t = fl then st.n + 1 else st.n
  let st1 :=
    if t ∈ sset then
      let action := sset.indexOf t / st.q
      { st with
          t := t
          n := n'
          set := sset
          action := action
          Tx := Function.update st.Tx action (st.Tx action ++ [x]) }
    else
      let expected_T := matVec st.beta_t x
      let mx := listMaxQ expected_T
      let K_hat := (List.range expected_T.length).filter
        (fun i => decide (mx - st.h / 2 ≤ expected_T.getD i 0))
      let expected_S := matVec st.beta_s x
      let filtered := K_hat.map (fun i => expected_S.getD i 0)
      let action := K_hat.getD (argmaxIdx filtered) 0
      { st with t := t, n := n', set := sset, action := action }
  (st1.action, { st1 with Sx := Function.update st1.Sx st1.action (st1.Sx st1.action ++ [x]) })

/-- The NameError raised when `LassoBandit.update` evaluates the free name `d`. -/
def nameErrD : String :=
  "NameError: name d is not defined"

/-- `LassoBandit.update`.  The Lasso starting points are written
`np.zeros(d)` in the source with `d` a free (module-scope) name, not
`self.d`; the parameter `moduleD` models that binding.  When it is absent the
call raises a `NameError` after the reward append that precedes the first
minimize call but before either estimator row is written; the partially
mutated state is returned together with the error. -/
noncomputable def lassoBanditUpdate (ext : SolverExt) (moduleD : Option ℕ)
    (st : LassoBanditState) (r : ℚ) : LassoBanditState × Option String :=
  match moduleD with
  | none =>
    if st.t ∈ st.set then
      ({ st with Tr := Function.update st.Tr st.action (st.Tr st.action ++ [r]) }, some nameErrD)
    else
      ({ st with Sr := Function.update st.Sr st.action (st.Sr st.action ++ [r]) }, some nameErrD)
  | some dm =>
    let st1 :=
      if st.t ∈ st.set then
        let stt := { st with Tr := Function.update st.Tr st.action (st.Tr st.action ++ [r]) }
        let bt := (ext.minimize (List.replicate dm 0) (stt.Tx stt.action) (stt.Tr stt.action)
          ((st.lam1 : ℝ))).x
        { stt with beta_t := stt.beta_t.set stt.action bt }
      else st
    let st2 := { st1 with Sr := Function.update st1.Sr st1.action (st1.Sr st1.action ++ [r]) }
    let lam2_t := (st.lam2 : ℝ) *
      Real.sqrt ((Real.log (st.t : ℝ) + Real.log (st.d : ℝ)) / (st.t : ℝ))
    let bs := (ext.minimize (List.replicate dm 0) (st2.Sx st2.action) (st2.Sr st2.action) lam2_t).x
    ({ st2 with beta_s := st2.beta_s.set st2.action bs }, none)

/- ### Concrete instantiations used by witnesses and counterexamples -/

/-- A simple deterministic generator model on `ℕ`: seeding stores the seed,
each categorical draw returns the current state and advances it, each uniform
draw does the same. -/
def rngW : RNG ℕ :=
  { seedFn := fun n => n
    choiceP := fun g _ => ((g : ℤ), g + 1)
    choiceU := fun g _ => (g, g + 1) }

/-- Trivial solver externals: `minimize` returns its starting point and
reports convergence; `matrix_sqrt` is the identity. -/
def extTriv : LassoExt :=
  { matrixSqrt := fun A => A
    minimizeImpute := fun i _ _ _ => ⟨i, true⟩
    minimizeMain := fun i _ _ => ⟨i, true⟩ }

/-- Trivial ridge externals. -/
def rextTriv : RidgeExt :=
  { sherman := fun A _ => A
    inv := fun A => A }

/-- Trivial Lasso-bandit solver external. -/
def sextTriv : SolverExt :=
  { minimize := fun i _ _ _ => ⟨i, true⟩ }

/-- A solver external whose minimize calls do not converge
(`success = false`) and return the iterate `[5, 7]`. -/
def extBad : LassoExt :=
  { matrixSqrt := fun A => A
    minimizeImpute := fun _ _ _ _ => ⟨[5, 7], false⟩
    minimizeMain := fun _ _ _ => ⟨[5, 7], false⟩ }

open Classical in
/-- A two-arm categorical sampler that returns the index of the larger mass:
the behaviour any correct sampler exhibits with probability equal to that
mass (and with certainty when one entry carries the whole mass). -/
noncomputable def pickGreedy (dist : List ℝ) : ℤ :=
  if dist.getD 0 0 < dist.getD 1 0 then 1 else 0

/-- A generator model on `ℕ` whose categorical draws follow `pickGreedy` and
whose uniform draw returns the current ambient state modulo the arm count:
two processes that start with different ambient states differ exactly in the
draws taken before any reseeding. -/
noncomputable def rngAmbient : RNG ℕ :=
  { seedFn := fun n => n
    choiceP := fun g dist => (pickGreedy dist, g + 1)
    choiceU := fun g K => (g % K, g + 1) }

/-- A matched `RoLFLasso` state after three rounds: round 1 matched on arm 0,
round 2 did not match, and the current round 3 has drawn
`pseudo_action = chosen_action = 0`. -/
def stW : RoLFLassoState :=
  { t := 3, d := 2, K := 2
    mu_hat := [0, 0], mu_check := [0, 0]
    impute_prev := [0, 0], main_prev := [0, 0]
    sigma := 1, p := 1/2, delta := 1/10
    action_history := [0, 0, 0], reward_history := [1, 2]
    matching := [(1, ⟨true, some [[1, 0], [0, 1]], some [2, 3], some 0, some 5⟩),
                 (2, ⟨false, none, none, none, none⟩)]
    random_state := 0, explore := false, init_explore := 0
    a_hat := 0, pseudo_action := 0, chosen_action := 0 }

/-- Like `stW` but the current round's draws did not coincide. -/
def stW4 : RoLFLassoState :=
  { stW with pseudo_action := 0, chosen_action := 1 }

/-- A matched `RoLFRidge` state analogous to `stW`. -/
def rstW : RoLFRidgeState :=
  { t := 3, d := 2, K := 2
    mu_hat := [0, 0], mu_check := [0, 0]
    sigma := 1, p := 1/2, delta := 1/10
    matching := [(1, ⟨true, some [[1, 0], [0, 1]], some [2, 3], some 0, some 5⟩),
                 (2, ⟨false, none, none, none, none⟩)]
    Vinv_impute := [[1, 0], [0, 1]], xty_impute := [0, 0]
    random_state := 0, explore := false, init_explore := 0
    a_hat := 0, pseudo_action := 0, chosen_action := 0 }

/-- Like `rstW` but unmatched in the current round. -/
def rstW4 : RoLFRidgeState :=
  { rstW with pseudo_action := 0, chosen_action := 1 }

/-- The context matrix fed to the witnesses. -/
def xW : List (List ℚ) :=
  [[1, 0], [0, 1]]

/-- A fresh `RoLFLasso` policy with forced exploration enabled for one round
(`explore = true`, `init_explore = 1`) and `p = 3/4`, `delta = 1`,
`random_state = 0`. -/
def polCE5 : RoLFLassoState :=
  { t := 0, d := 2, K := 2
    mu_hat := [0, 0], mu_check := [0, 0]
    impute_prev := [0, 0], main_prev := [0, 0]
    sigma := 1, p := 3/4, delta := 1
    action_history := [], reward_history := [], matching := []
    random_state := 0, explore := true, init_explore := 1
    a_hat := 0, pseudo_action := 0, chosen_action := 0 }

/-- The same policy with exploration disabled. -/
def polDet : RoLFLassoState :=
  { polCE5 with explore := false }

/-- A one-round input sequence. -/
def inputsW : List (List (List ℚ) × ℚ) :=
  [(xW, 0)]

/-- A fresh `LassoBandit` instance with two arms. -/
def lb0 : LassoBanditState :=
  lassoBanditInit 2 10 2 1 1 1 1

/- ### Ledger lemmas -/

theorem lookup_entry_map (m : List (ℕ × Entry)) (f : Entry → Entry) (k : ℕ) :
    (m.map (fun ke => (ke.1, f ke.2))).lookup k = (m.lookup k).map f := by
  induction m with
  | nil => rfl
  | cons a rest ih =>
    by_cases h : k = a.1
    · simp [List.lookup, h]
    · simp [List.lookup, h, ih, beq_false_of_ne h]

theorem lookup_none_of_not_any (m : List (ℕ × Entry)) (k : ℕ)
    (h : m.any (fun ke => ke.1 == k) = false) : m.lookup k = none := by
  induction m with
  | nil => rfl
  | cons a rest ih =>
    simp only [List.any_cons, Bool.or_eq_false_iff] at h
    have hk : k ≠ a.1 := by
      intro he; rw [he] at h; simp at h
    simp [List.lookup, beq_false_of_ne hk, ih h.2]

theorem lookup_replace_eq (m : List (ℕ × Entry)) (k : ℕ) (e : Entry) :
    (m.map (fun ke => if ke.1 = k then (k, e) else ke)).lookup k =
      if m.any (fun ke => ke.1 == k) then some e else none := by
  induction m with
  | nil => rfl
  | cons a rest ih =>
    obtain ⟨k1, e1⟩ := a
    simp only [List.map_cons]
    by_cases h : k1 = k
    · subst h
      rw [if_pos rfl]
      simp [List.lookup]
    · rw [if_neg (by simpa using h)]
      have hb : (k1 == k) = false := beq_false_of_ne h
      have hb' : (k == k1) = false := beq_false_of_ne (Ne.symm h)
      simp only [List.lookup, hb', List.any_cons, ih]
      by_cases hany : (rest.any fun ke => ke.1 == k) = true <;>
        simp [hany, hb]

theorem lookup_replace_ne (m : List (ℕ × Entry)) (k : ℕ) (e : Entry) (k' : ℕ)
    (h : k' ≠ k) : (m.map (fun ke => if ke.1 = k then (k, e) else ke)).lookup k' =
      m.lookup k' := by
  induction m with
  | nil => rfl
  | cons a rest ih =>
    obtain ⟨k1, e1⟩ := a
    simp only [List.map_cons]
    by_cases hk : k1 = k
    · subst hk
      rw [if_pos rfl]
      simp [List.lookup, beq_false_of_ne h, ih]
    · rw [if_neg (by simpa using hk)]
      cases hbeq : (k' == k1) <;> simp [List.lookup, hbeq, ih]

theorem lookup_append_sing_ne (m : List (ℕ × Entry)) (k : ℕ) (e : Entry) (k' : ℕ)
    (h : k' ≠ k) : (m ++ [(k, e)]).lookup k' = m.lookup k' := by
  induction m with
  | nil => simp [List.lookup, beq_false_of_ne h]
  | cons a rest ih =>
    obtain ⟨k1, e1⟩ := a
    cases hbeq : (k' == k1) <;> simp [List.lookup, hbeq, ih]

theorem lookup_append_sing_eq (m : List (ℕ × Entry)) (k : ℕ) (e : Entry)
    (hnone : m.lookup k = none) : (m ++ [(k, e)]).lookup k = some e := by
  induction m with
  | nil => simp [List.lookup]
  | cons a rest ih =>
    obtain ⟨k1, e1⟩ := a
    cases hbeq : (k == k1)
    · simp only [List.lookup, hbeq] at hnone
      simp [List.lookup, hbeq, ih hnone]
    · simp only [List.lookup, hbeq] at hnone
      exact absurd hnone (by simp)

theorem lookup_dictInsert_self (m : List (ℕ × Entry)) (k : ℕ) (e : Entry) :
    (dictInsert m k e).lookup k = some e := by
  unfold dictInsert
  split
  · rename_i hany
    rw [lookup_replace_eq, if_pos hany]
  · rename_i hany
    exact lookup_append_sing_eq m k e
      (lookup_none_of_not_any m k (by rw [Bool.not_eq_true] at hany; exact hany))

theorem lookup_dictInsert_ne (m : List (ℕ × Entry)) (k : ℕ) (e : Entry) (k' : ℕ)
    (h : k' ≠ k) : (dictInsert m k e).lookup k' = m.lookup k' := by
  unfold dictInsert
  split
  · exact lookup_replace_ne m k e k' h
  · exact lookup_append_sing_ne m k e k' h

theorem recompute_WF (p : ℚ) (mu : List ℚ) (e : Entry) (hwf : EntryWF e) :
    EntryWF (recomputePseudo p mu e) := by
  rcases e with ⟨ma, da, ps, ch, rw⟩
  cases ma
  · simpa [recomputePseudo] using hwf
  · obtain ⟨h1, h2, h3, h4⟩ := hwf.mp rfl
    rcases da with _ | X
    · simp at h1
    rcases ch with _ | c
    · simp at h3
    rcases rw with _ | v
    · simp at h4
    simp [recomputePseudo, EntryWF]

theorem ledgerWF_map (p : ℚ) (mu : List ℚ) (m : List (ℕ × Entry)) (hm : LedgerWF m) :
    LedgerWF (m.map (fun ke => (ke.1, recomputePseudo p mu ke.2))) := by
  intro ke hke
  rcases List.mem_map.mp hke with ⟨ke0, hke0, rfl⟩
  exact recompute_WF p mu ke0.2 (hm ke0 hke0)

theorem ledgerWF_dictInsert (m : List (ℕ × Entry)) (k : ℕ) (e : Entry)
    (hm : LedgerWF m) (he : EntryWF e) : LedgerWF (dictInsert m k e) := by
  intro ke hke
  unfold dictInsert at hke
  split at hke
  · rcases List.mem_map.mp hke with ⟨ke0, hke0, rfl⟩
    by_cases h : ke0.1 = k
    · rw [if_pos h]; exact he
    · rw [if_neg h]; exact hm ke0 hke0
  · rcases List.mem_append.mp hke with h | h
    · exact hm _ h
    · rw [List.mem_singleton.mp h]; exact he

/- ### Claim C1 -/

/-- Claim C1: in `RoLFLasso.update` and `RoLFRidge.update`, on every round
where the pseudo draw equals the chosen draw, after refitting the imputation
estimator the policy recomputes the pseudo-reward vector of every previously
matched ledger entry as `X @ mu_impute` plus the importance-weighted
correction `(1/p) * (reward - X[chosen] @ mu_impute)` at the stored
chosen-action coordinate (`currentPseudo`), and appends the current round's
own corrected pseudo-reward vector under the current round index. -/
theorem spec_C1 :
    (∀ (ext : LassoExt) (st : RoLFLassoState) (x : List (List ℚ)) (r : ℚ),
      st.pseudo_action = st.chosen_action →
      st.matching.lookup st.t = none →
      ((∀ k X ps c rw,
          st.matching.lookup k = some ⟨true, some X, ps, some c, some rw⟩ →
          (rolfLassoUpdate ext st x r).matching.lookup k =
            some ⟨true, some X,
              some (currentPseudo st.p (rolfLassoImputeEst ext st x r) X c rw),
              some c, some rw⟩) ∧
        (rolfLassoUpdate ext st x r).matching.lookup st.t =
          some ⟨true, some x,
            some (currentPseudo st.p (rolfLassoImputeEst ext st x r) x st.chosen_action r),
            some st.chosen_action, some r⟩)) ∧
    (∀ (ext : RidgeExt) (st : RoLFRidgeState) (x : List (List ℚ)) (r : ℚ),
      st.pseudo_action = st.chosen_action →
      st.matching.lookup st.t = none →
      ((∀ k X ps c rw,
          st.matching.lookup k = some ⟨true, some X, ps, some c, some rw⟩ →
          (rolfRidgeUpdate ext st x r).matching.lookup k =
            some ⟨true, some X,
              some (currentPseudo st.p (rolfRidgeImputeEst ext st x r) X c rw),
              some c, some rw⟩) ∧
        (rolfRidgeUpdate ext st x r).matching.lookup st.t =
          some ⟨true, some x,
            some (currentPseudo st.p (rolfRidgeImputeEst ext st x r) x st.chosen_action r),
            some st.chosen_action, some r⟩)) := by
  constructor
  · intro ext st x r hpc hfresh
    have hmatch : (rolfLassoUpdate ext st x r).matching = rolfLassoMatchingNext ext st x r := by
      unfold rolfLassoUpdate
      rw [if_pos hpc]
    constructor
    · intro k X ps c rw hk
      have hk_ne : k ≠ st.t := by
        intro he; rw [he, hfresh] at hk; exact Option.noConfusion hk
      rw [hmatch]
      unfold rolfLassoMatchingNext
      rw [lookup_dictInsert_ne _ _ _ _ hk_ne, lookup_entry_map, hk]
      rfl
    · rw [hmatch]
      unfold rolfLassoMatchingNext
      rw [lookup_dictInsert_self]
      simp [hpc]
  · intro ext st x r hpc hfresh
    have hmatch : (rolfRidgeUpdate ext st x r).matching = rolfRidgeMatchingNext ext st x r := by
      unfold rolfRidgeUpdate
      rw [if_pos hpc]
    constructor
    · intro k X ps c rw hk
      have hk_ne : k ≠ st.t := by
        intro he; rw [he, hfresh] at hk; exact Option.noConfusion hk
      rw [hmatch]
      unfold rolfRidgeMatchingNext
      rw [lookup_dictInsert_ne _ _ _ _ hk_ne, lookup_entry_map, hk]
      rfl
    · rw [hmatch]
      unfold rolfRidgeMatchingNext
      rw [lookup_dictInsert_self]
      simp [hpc]

/-- Closed instance of `spec_C1` at a concrete matched state. -/
theorem spec_C1_witness :
    (rolfLassoUpdate extTriv stW xW 2).matching.lookup stW.t =
      some ⟨true, some xW,
        some (currentPseudo stW.p (rolfLassoImputeEst extTriv stW xW 2) xW stW.chosen_action 2),
        some stW.chosen_action, some 2⟩ ∧
    (rolfRidgeUpdate rextTriv rstW xW 2).matching.lookup rstW.t =
      some ⟨true, some xW,
        some (currentPseudo rstW.p (rolfRidgeImputeEst rextTriv rstW xW 2) xW rstW.chosen_action 2),
        some rstW.chosen_action, some 2⟩ :=
  ⟨(spec_C1.1 extTriv stW xW 2 (by decide) (by decide)).2,
   (spec_C1.2 rextTriv rstW xW 2 (by decide) (by decide)).2⟩

/- ### Claim C2 -/

/-- Claim C2: for `RoLFLasso` and `RoLFRidge`, the matching-ledger invariant —
an entry has a non-null payload exactly when its matched flag is true — holds
at construction and is preserved by every `update` call, and the residual
terms summed by `RoLFLasso.__main_loss` are in bijection with the matched
entries: their count equals the number of matched entries. -/
theorem spec_C2 :
    (∀ d arms (p delta sigma : ℚ) rs ex ie s,
      rolfLassoInit d arms p delta sigma rs ex ie = Except.ok s → LedgerWF s.matching) ∧
    (∀ (ext : LassoExt) (st : RoLFLassoState) x r,
      LedgerWF st.matching → LedgerWF (rolfLassoUpdate ext st x r).matching) ∧
    (∀ d arms (p delta sigma : ℚ) rs ex ie s,
      rolfRidgeInit d arms p delta sigma rs ex ie = Except.ok s → LedgerWF s.matching) ∧
    (∀ (ext : RidgeExt) (st : RoLFRidgeState) x r,
      LedgerWF st.matching → LedgerWF (rolfRidgeUpdate ext st x r).matching) ∧
    (∀ m beta, (mainLossTerms m beta).length = matchedCount m) := by
  refine ⟨?_, ?_, ?_, ?_, ?_⟩
  · intro d arms p delta sigma rs ex ie s h
    cases h
    intro ke hke
    simp at hke
  · intro ext st x r hm
    unfold rolfLassoUpdate
    by_cases hpc : st.pseudo_action = st.chosen_action
    · rw [if_pos hpc]
      unfold rolfLassoMatchingNext
      refine ledgerWF_dictInsert _ _ _ (ledgerWF_map _ _ _ hm) ?_
      simp [EntryWF, hpc]
    · rw [if_neg hpc]
      refine ledgerWF_dictInsert _ _ _ hm ?_
      simp [EntryWF, hpc]
  · intro d arms p delta sigma rs ex ie s h
    cases h
    intro ke hke
    simp at hke
  · intro ext st x r hm
    unfold rolfRidgeUpdate
    by_cases hpc : st.pseudo_action = st.chosen_action
    · rw [if_pos hpc]
      unfold rolfRidgeMatchingNext
      refine ledgerWF_dictInsert _ _ _ (ledgerWF_map _ _ _ hm) ?_
      simp [EntryWF, hpc]
    · rw [if_neg hpc]
      refine ledgerWF_dictInsert _ _ _ hm ?_
      simp [EntryWF, hpc]
  · intro m beta
    unfold mainLossTerms matchedCount
    exact List.length_map _ _

/-- Closed instance of `spec_C2` at a concrete state. -/
theorem spec_C2_witness :
    LedgerWF stW.matching ∧ LedgerWF (rolfLassoUpdate extTriv stW xW 2).matching ∧
    LedgerWF (rolfRidgeUpdate rextTriv rstW xW 2).matching :=
  ⟨by decide, spec_C2.2.1 extTriv stW xW 2 (by decide),
   spec_C2.2.2.2.1 rextTriv rstW xW 2 (by decide)⟩

/- ### Claim C4 -/

/-- Claim C4: on every round where the draws did not coincide, `update`
appends a ledger entry carrying no payload and performs no estimator update:
`mu_hat` and `mu_check` (and for `RoLFRidge` also `Vinv_impute` and
`xty_impute`) keep their previous values. -/
theorem spec_C4 :
    (∀ (ext : LassoExt) (st : RoLFLassoState) x r,
      st.pseudo_action ≠ st.chosen_action →
      (rolfLassoUpdate ext st x r).mu_hat = st.mu_hat ∧
      (rolfLassoUpdate ext st x r).mu_check = st.mu_check ∧
      (rolfLassoUpdate ext st x r).matching =
        dictInsert st.matching st.t ⟨false, none, none, none, none⟩) ∧
    (∀ (ext : RidgeExt) (st : RoLFRidgeState) x r,
      st.pseudo_action ≠ st.chosen_action →
      (rolfRidgeUpdate ext st x r).mu_hat = st.mu_hat ∧
      (rolfRidgeUpdate ext st x r).mu_check = st.mu_check ∧
      (rolfRidgeUpdate ext st x r).Vinv_impute = st.Vinv_impute ∧
      (rolfRidgeUpdate ext st x r).xty_impute = st.xty_impute ∧
      (rolfRidgeUpdate ext st x r).matching =
        dictInsert st.matching st.t ⟨false, none, none, none, none⟩) := by
  constructor
  · intro ext st x r hne
    unfold rolfLassoUpdate
    rw [if_neg hne]
    refine ⟨rfl, rfl, ?_⟩
    simp [hne]
  · intro ext st x r hne
    unfold rolfRidgeUpdate
    rw [if_neg hne]
    refine ⟨rfl, rfl, rfl, rfl, ?_⟩
    simp [hne]

/-- Closed instance of `spec_C4` at a concrete unmatched state. -/
theorem spec_C4_witness :
    (rolfLassoUpdate extTriv stW4 xW 2).mu_hat = stW4.mu_hat ∧
    (rolfRidgeUpdate rextTriv rstW4 xW 2).Vinv_impute = rstW4.Vinv_impute :=
  ⟨(spec_C4.1 extTriv stW4 xW 2 (by decide)).1,
   (spec_C4.2 rextTriv rstW4 xW 2 (by decide)).2.2.1⟩

/- ### Claim C6 -/

/-- Claim C6 (amended): `RoLFLasso.update` reads only the `.x` iterate of each
`scipy.optimize.minimize` result and adopts it unconditionally as the new
estimator — also when the solver did not converge — and the updated state does
not depend on the `.success` flags at all, so no non-convergence indicator is
recorded and no fault propagates (the update is a total function). -/
theorem spec_C6 :
    (∀ (ext : LassoExt) (st : RoLFLassoState) x r,
      st.pseudo_action = st.chosen_action →
      (rolfLassoUpdate ext st x r).mu_check =
        (ext.minimizeImpute
          (matVec (ext.matrixSqrt (matMul (matTranspose x) x)) st.impute_prev)
          (st.action_history.map (fun a => x.getD (pyIdx x.length a) []))
          (st.reward_history ++ [r]) st.p).x ∧
      (rolfLassoUpdate ext st x r).mu_hat =
        (ext.minimizeMain
          (matVec (ext.matrixSqrt (matMul (matTranspose x) x)) st.main_prev)
          st.p (rolfLassoMatchingNext ext st x r)).x) ∧
    (∀ (ext ext' : LassoExt) (st : RoLFLassoState) x r,
      (∀ i X y l, (ext.minimizeImpute i X y l).x = (ext'.minimizeImpute i X y l).x) →
      (∀ i l m, (ext.minimizeMain i l m).x = (ext'.minimizeMain i l m).x) →
      ext.matrixSqrt = ext'.matrixSqrt →
      rolfLassoUpdate ext st x r = rolfLassoUpdate ext' st x r) := by
  constructor
  · intro ext st x r hpc
    unfold rolfLassoUpdate
    rw [if_pos hpc]
    exact ⟨rfl, rfl⟩
  · intro ext ext' st x r hImp hMain hSq
    have hI : rolfLassoImputeEst ext st x r = rolfLassoImputeEst ext' st x r := by
      unfold rolfLassoImputeEst
      rw [hSq]
      exact hImp _ _ _ _
    have hMN : rolfLassoMatchingNext ext st x r = rolfLassoMatchingNext ext' st x r := by
      unfold rolfLassoMatchingNext
      rw [hI]
    have hME : rolfLassoMainEst ext st x r = rolfLassoMainEst ext' st x r := by
      unfold rolfLassoMainEst
      rw [hSq, hMN]
      exact hMain _ _ _
    unfold rolfLassoUpdate
    rw [hI, hMN, hME]

/-- Closed instance of `spec_C6` at a concrete matched state. -/
theorem spec_C6_witness :
    (rolfLassoUpdate extTriv stW xW 2).mu_check =
      (extTriv.minimizeImpute
        (matVec (extTriv.matrixSqrt (matMul (matTranspose xW) xW)) stW.impute_prev)
        (stW.action_history.map (fun a => xW.getD (pyIdx xW.length a) []))
        (stW.reward_history ++ [2]) stW.p).x :=
  (spec_C6.1 extTriv stW xW 2 (by decide)).1

/-- Counterexample to claim C6 as stated: with a solver run that reports
`success = false`, the update adopts the non-converged iterate `[5, 7]`
instead of retaining the previous estimator value `[0, 0]`, and the state
carries no convergence flag. -/
theorem claim_C6_cex :
    (rolfLassoUpdate extBad stW xW 2).mu_check = [5, 7] ∧
    stW.mu_check ≠ [5, 7] ∧
    (extBad.minimizeImpute [] [] [] 0).success = false := by
  refine ⟨by decide, by decide, rfl⟩

/- ### Claim C7 -/

/-- Claim C7 (amended): `ETC.__init__` does abort construction when the
exploration budget exceeds the horizon, but `RoLFLasso.__init__` and
`RoLFRidge.__init__` perform no validation at all: construction succeeds for
every `p`, including `p` outside `(0, 1)`. -/
theorem spec_C7 :
    (∀ arms explore horizon (initial : ℚ), horizon < explore * arms →
      etcInit arms explore horizon initial =
        Except.error "Explore must be less than or equal to horizon") ∧
    (∀ d arms (p delta sigma : ℚ) rs ex ie,
      exceptOk (rolfLassoInit d arms p delta sigma rs ex ie) = true) ∧
    (∀ d arms (p delta sigma : ℚ) rs ex ie,
      exceptOk (rolfRidgeInit d arms p delta sigma rs ex ie) = true) := by
  refine ⟨?_, fun _ _ _ _ _ _ _ _ => rfl, fun _ _ _ _ _ _ _ _ => rfl⟩
  intro arms explore horizon initial h
  unfold etcInit
  rw [if_neg (by omega)]

/-- Closed instance of `spec_C7`: an over-budget `ETC` construction aborts. -/
theorem spec_C7_witness :
    1 < 3 * 2 ∧
    etcInit 2 3 1 0 = Except.error "Explore must be less than or equal to horizon" :=
  ⟨by decide, spec_C7.1 2 3 1 0 (by decide)⟩

/-- Counterexample to claim C7 as stated: constructing `RoLFLasso` and
`RoLFRidge` with matching probability `p = 2` (outside `(0, 1)`) succeeds
rather than aborting. -/
theorem claim_C7_cex :
    exceptOk (rolfLassoInit 2 2 2 1 1 0 false 0) = true ∧
    exceptOk (rolfRidgeInit 2 2 2 1 1 0 false 0) = true :=
  ⟨rfl, rfl⟩

/- ### Claim C8 -/

/-- Claim C8 (amended): with `arms = 2`, `q = 1`, the flag formula of
`LassoBandit.choose` fires at rounds 1, 3, 7 for `n = 0, 1, 2`, and each
forced-sample window holds `q * arms = 2` consecutive rounds: `{1, 2}`,
`{3, 4}`, `{7, 8}`. -/
theorem spec_C8 :
    lassoFlag 0 2 1 = 1 ∧ forcedWindow 1 (1 * 2) = [1, 2] ∧
    lassoFlag 1 2 1 = 3 ∧ forcedWindow 3 (1 * 2) = [3, 4] ∧
    lassoFlag 2 2 1 = 7 ∧ forcedWindow 7 (1 * 2) = [7, 8] := by
  decide

/-- Counterexample to claim C8 as stated: round 5 lies in none of the forced
windows opened by the flags for `n = 0, 1, 2`, so the second window is
`{3, 4}` rather than the claimed `{3, 4, 5, 6}`. -/
theorem claim_C8_cex :
    5 ∉ forcedWindow (lassoFlag 0 2 1) (1 * 2) ∧
    5 ∉ forcedWindow (lassoFlag 1 2 1) (1 * 2) ∧
    5 ∉ forcedWindow (lassoFlag 2 2 1) (1 * 2) := by
  decide

/- ### Claim C9 -/

/-- Claim C9 (amended): `choose` leaves the sufficient statistics, reward
histories and per-arm estimators unchanged, but it does more than update the
round counter and scratch: `LinUCB.choose` rewrites the coefficient estimate
`theta_hat` in place, `RoLFLasso.choose` appends to `action_history`, and
`LassoBandit.choose` appends the context to the `Tx`/`Sx` sample sets. -/
theorem spec_C9 :
    (∀ (alphaFn : ℚ → ℝ) (pick : List ℕ → ℕ) st x,
      (linUCBChoose alphaFn pick st x).2.Vinv = st.Vinv ∧
      (linUCBChoose alphaFn pick st x).2.xty = st.xty ∧
      (linUCBChoose alphaFn pick st x).2.t = st.t + 1 ∧
      (linUCBChoose alphaFn pick st x).2.theta_hat = matVec st.Vinv st.xty) ∧
    (∀ st x,
      (lassoBanditChoose st x).2.beta_t = st.beta_t ∧
      (lassoBanditChoose st x).2.beta_s = st.beta_s ∧
      (lassoBanditChoose st x).2.Tr = st.Tr ∧
      (lassoBanditChoose st x).2.Sr = st.Sr ∧
      (lassoBanditChoose st x).2.t = st.t + 1) ∧
    (∀ {G : Type} (rng : RNG G) (st : RoLFLassoState) x g,
      (rolfLassoChoose rng st x g).2.1.action_history =
        st.action_history ++ [(rolfLassoChoose rng st x g).1]) := by
  refine ⟨?_, ?_, ?_⟩
  · intro alphaFn pick st x
    exact ⟨rfl, rfl, rfl, rfl⟩
  · intro st x
    unfold lassoBanditChoose
    refine ⟨?_, ?_, ?_, ?_, ?_⟩ <;> (dsimp only; split <;> split <;> rfl)
  · intro G rng st x g
    rfl

/-- Counterexample to claim C9 as stated: at round 1 `LassoBandit.choose`
appends the context to the sample set `Sx[0]`, so a sample set is mutated
inside `choose`, not only inside `update`. -/
theorem claim_C9_cex :
    (lassoBanditChoose lb0 [1, 0]).2.Sx 0 = [[1, 0]] ∧ lb0.Sx 0 = [] := by
  refine ⟨by decide, rfl⟩

/- ### Claim C10 -/

/-- Claim C10: `LassoBandit.update` starts both Lasso minimisations at
`np.zeros(d)` where `d` is a free module-scope name.  Without a module-level
binding every call raises a `NameError` before `beta_t` or `beta_s` is
modified; with a module-level binding `dm` the starting vector has length
`dm`, which is the wrong length whenever `dm ≠ self.d`. -/
theorem spec_C10 :
    (∀ (ext : SolverExt) (st : LassoBanditState) (r : ℚ),
      (lassoBanditUpdate ext none st r).2 = some nameErrD ∧
      (lassoBanditUpdate ext none st r).1.beta_t = st.beta_t ∧
      (lassoBanditUpdate ext none st r).1.beta_s = st.beta_s) ∧
    (∀ (ext : SolverExt) dm (st : LassoBanditState) (r : ℚ),
      (lassoBanditUpdate ext (some dm) st r).1.beta_s =
        st.beta_s.set st.action
          ((ext.minimize (List.replicate dm 0) (st.Sx st.action) (st.Sr st.action ++ [r])
            ((st.lam2 : ℝ) *
              Real.sqrt ((Real.log (st.t : ℝ) + Real.log (st.d : ℝ)) / (st.t : ℝ)))).x)) ∧
    (∀ dm (st : LassoBanditState), dm ≠ st.d →
      (List.replicate dm (0 : ℚ)).length ≠ st.d) := by
  refine ⟨?_, ?_, ?_⟩
  · intro ext st r
    unfold lassoBanditUpdate
    dsimp only
    split <;> exact ⟨rfl, rfl, rfl⟩
  · intro ext dm st r
    unfold lassoBanditUpdate
    dsimp only
    split <;> simp [Function.update_same]
  · intro dm st h
    rw [List.length_replicate]
    exact h

/-- Closed instance of `spec_C10`: a module-level `d = 0` differs from the
instance dimension of `lb0`, and the zero starting vector then has the wrong
length. -/
theorem spec_C10_witness :
    (0 : ℕ) ≠ lb0.d ∧ (List.replicate 0 (0 : ℚ)).length ≠ lb0.d :=
  ⟨by decide, spec_C10.2.2 0 lb0 (by decide)⟩

/- ### The matching loop: invariant lemmas -/

theorem sampleGo_invariant {G : Type} (rng : RNG G) (pdist cdist : List ℝ) (M : ℤ) (g0 : G) :
    ∀ (fuel n : ℕ) (p c : ℤ),
      (0 < n → (p, c) = pairAt rng pdist cdist g0 (n - 1)) →
      (∀ j, j + 1 < n → (pairAt rng pdist cdist g0 j).1 ≠ (pairAt rng pdist cdist g0 j).2) →
      n ≤ (M + 1).toNat →
      (M + 1).toNat + 1 ≤ n + fuel →
      (sampleGo rng pdist cdist M fuel p c n (gAt rng pdist cdist g0 n)).2.2.1 ≤ (M + 1).toNat ∧
      (∀ j, j + 1 < (sampleGo rng pdist cdist M fuel p c n (gAt rng pdist cdist g0 n)).2.2.1 →
        (pairAt rng pdist cdist g0 j).1 ≠ (pairAt rng pdist cdist g0 j).2) ∧
      (0 < (sampleGo rng pdist cdist M fuel p c n (gAt rng pdist cdist g0 n)).2.2.1 →
        ((sampleGo rng pdist cdist M fuel p c n (gAt rng pdist cdist g0 n)).1,
         (sampleGo rng pdist cdist M fuel p c n (gAt rng pdist cdist g0 n)).2.1) =
          pairAt rng pdist cdist g0
            ((sampleGo rng pdist cdist M fuel p c n (gAt rng pdist cdist g0 n)).2.2.1 - 1)) ∧
      ((sampleGo rng pdist cdist M fuel p c n (gAt rng pdist cdist g0 n)).1 ≠
        (sampleGo rng pdist cdist M fuel p c n (gAt rng pdist cdist g0 n)).2.1 →
        (sampleGo rng pdist cdist M fuel p c n (gAt rng pdist cdist g0 n)).2.2.1 =
          (M + 1).toNat) := by
  intro fuel
  induction fuel with
  | zero =>
    intro n p c h1 h2 h3 h4
    omega
  | succ f ih =>
    intro n p c h1 h2 h3 h4
    by_cases hg : p ≠ c ∧ (n : ℤ) ≤ M
    · have hstep : sampleGo rng pdist cdist M (f + 1) p c n (gAt rng pdist cdist g0 n) =
          sampleGo rng pdist cdist M f (pairAt rng pdist cdist g0 n).1
            (pairAt rng pdist cdist g0 n).2 (n + 1) (gAt rng pdist cdist g0 (n + 1)) := by
        simp only [sampleGo]
        rw [if_pos hg]
        rfl
      rw [hstep]
      obtain ⟨hne, hle⟩ := hg
      apply ih (n + 1)
      · intro _
        simp
      · intro j hj
        rcases Nat.lt_succ_iff_lt_or_eq.mp hj with hlt | heq
        · exact h2 j hlt
        · have hn : 0 < n := by omega
          have hpc := h1 hn
          have hj' : j = n - 1 := by omega
          subst hj'
          rw [← hpc]
          exact hne
      · omega
      · omega
    · have hstop : sampleGo rng pdist cdist M (f + 1) p c n (gAt rng pdist cdist g0 n) =
          (p, c, n, gAt rng pdist cdist g0 n) := by
        simp only [sampleGo]
        rw [if_neg hg]
      rw [hstop]
      dsimp only
      refine ⟨h3, h2, h1, ?_⟩
      intro hne
      have hnle : ¬ ((n : ℤ) ≤ M) := fun hle => hg ⟨hne, hle⟩
      omega

theorem rolfSample_spec {G : Type} (rng : RNG G) (pdist cdist : List ℝ) (M : ℤ) (g0 : G) :
    (rolfSample rng pdist cdist M g0).2.2.1 ≤ (M + 1).toNat ∧
    (∀ j, j + 1 < (rolfSample rng pdist cdist M g0).2.2.1 →
      (pairAt rng pdist cdist g0 j).1 ≠ (pairAt rng pdist cdist g0 j).2) ∧
    (0 < (rolfSample rng pdist cdist M g0).2.2.1 →
      ((rolfSample rng pdist cdist M g0).1, (rolfSample rng pdist cdist M g0).2.1) =
        pairAt rng pdist cdist g0 ((rolfSample rng pdist cdist M g0).2.2.1 - 1)) ∧
    ((rolfSample rng pdist cdist M g0).1 ≠ (rolfSample rng pdist cdist M g0).2.1 →
      (rolfSample rng pdist cdist M g0).2.2.1 = (M + 1).toNat) := by
  have h := sampleGo_invariant rng pdist cdist M g0 ((M + 1).toNat + 1) 0 (-1) (-2)
    (by omega) (by omega) (by omega) (by omega)
  exact h

/- ### Claim C3 -/

theorem rolfMaxIter_t1_d4_phalf : rolfMaxIter 1 4 (1 / 2) = 0 := by
  have h1 : (((1 : ℕ) : ℝ) + 1) ^ 2 / ((4 : ℚ) : ℝ) = 1 := by
    push_cast
    norm_num
  have h2 : (1 : ℝ) / ((1 / 2 : ℚ) : ℝ) = 2 := by
    push_cast
    norm_num
  unfold rolfMaxIter
  rw [h1, h2, Real.log_one, zero_div]
  unfold pyInt
  norm_num

theorem rolfMaxIter_t1_dq_phalf : rolfMaxIter 1 (1 / 4) (1 / 2) = 4 := by
  have h1 : (((1 : ℕ) : ℝ) + 1) ^ 2 / ((1 / 4 : ℚ) : ℝ) = 2 ^ (4 : ℕ) := by
    push_cast
    norm_num
  have h2 : (1 : ℝ) / ((1 / 2 : ℚ) : ℝ) = 2 := by
    push_cast
    norm_num
  unfold rolfMaxIter
  rw [h1, h2, Real.log_pow, mul_div_assoc,
    div_self (ne_of_gt (Real.log_pos one_lt_two)), mul_one]
  unfold pyInt
  norm_num

theorem ceil_formula_t1 :
    (⌈Real.log (((1 : ℝ) + 1) ^ 2 / ((1 / 4 : ℚ) : ℝ)) /
        Real.log (1 / ((1 / 2 : ℚ) : ℝ))⌉ : ℤ) = 4 := by
  have h1 : ((1 : ℝ) + 1) ^ 2 / ((1 / 4 : ℚ) : ℝ) = 2 ^ (4 : ℕ) := by
    push_cast
    norm_num
  have h2 : (1 : ℝ) / ((1 / 2 : ℚ) : ℝ) = 2 := by
    push_cast
    norm_num
  rw [h1, h2, Real.log_pow, mul_div_assoc,
    div_self (ne_of_gt (Real.log_pos one_lt_two)), mul_one]
  norm_num

/-- Claim C3 (amended): the matching loop of `choose` draws one pseudo and one
chosen action per attempt and stops as soon as the two draws coincide or
`⌊log((t+1)²/delta)/log(1/p)⌋ + 1` attempts have been made (the code computes
`int(...)` — truncation — and its `count <= max_iter` guard admits one more
iteration than the truncated value); the returned action is the last
chosen-distribution draw. -/
theorem spec_C3 :
    (∀ {G : Type} (rng : RNG G) (pdist cdist : List ℝ) (t : ℕ) (delta p : ℚ) (g0 : G),
      (rolfSample rng pdist cdist (rolfMaxIter t delta p) g0).2.2.1 ≤
        (rolfMaxIter t delta p + 1).toNat ∧
      (∀ j, j + 1 < (rolfSample rng pdist cdist (rolfMaxIter t delta p) g0).2.2.1 →
        (pairAt rng pdist cdist g0 j).1 ≠ (pairAt rng pdist cdist g0 j).2) ∧
      (0 < (rolfSample rng pdist cdist (rolfMaxIter t delta p) g0).2.2.1 →
        ((rolfSample rng pdist cdist (rolfMaxIter t delta p) g0).1,
         (rolfSample rng pdist cdist (rolfMaxIter t delta p) g0).2.1) =
          pairAt rng pdist cdist g0
            ((rolfSample rng pdist cdist (rolfMaxIter t delta p) g0).2.2.1 - 1)) ∧
      ((rolfSample rng pdist cdist (rolfMaxIter t delta p) g0).1 ≠
        (rolfSample rng pdist cdist (rolfMaxIter t delta p) g0).2.1 →
        (rolfSample rng pdist cdist (rolfMaxIter t delta p) g0).2.2.1 =
          (rolfMaxIter t delta p + 1).toNat)) ∧
    (∀ {G : Type} (rng : RNG G) (st : RoLFLassoState) x g,
      (rolfLassoChoose rng st x g).1 =
        (rolfSample rng (pseudoDist st.K (rolfAhatL rng st x g) st.p)
          (chosenDist st.K (rolfAhatL rng st x g) (st.t + 1))
          (rolfMaxIter (st.t + 1) st.delta st.p)
          (rng.seedFn (st.random_state + (st.t + 1)))).2.1) ∧
    (∀ {G : Type} (rng : RNG G) (st : RoLFRidgeState) x g,
      (rolfRidgeChoose rng st x g).1 =
        (rolfSample rng (pseudoDist st.K (rolfAhatR rng st x g) st.p)
          (chosenDist st.K (rolfAhatR rng st x g) (st.t + 1))
          (rolfMaxIter (st.t + 1) st.delta st.p)
          (rng.seedFn (st.random_state + (st.t + 1)))).2.1) := by
  refine ⟨?_, ?_, ?_⟩
  · intro G rng pdist cdist t delta p g0
    exact rolfSample_spec rng pdist cdist (rolfMaxIter t delta p) g0
  · intro G rng st x g
    rfl
  · intro G rng st x g
    rfl

/-- Closed instance of `spec_C3`: at `t = 1`, `delta = 4`, `p = 1/2` the loop
performs one attempt and the returned pair is that attempt's draw pair. -/
theorem spec_C3_witness :
    0 < (rolfSample rngW [] [] (rolfMaxIter 1 4 (1 / 2)) 0).2.2.1 ∧
    ((rolfSample rngW [] [] (rolfMaxIter 1 4 (1 / 2)) 0).1,
      (rolfSample rngW [] [] (rolfMaxIter 1 4 (1 / 2)) 0).2.1) =
      pairAt rngW [] [] 0 ((rolfSample rngW [] [] (rolfMaxIter 1 4 (1 / 2)) 0).2.2.1 - 1) := by
  have hpos : 0 < (rolfSample rngW [] [] (rolfMaxIter 1 4 (1 / 2)) 0).2.2.1 := by
    rw [rolfMaxIter_t1_d4_phalf]
    decide
  exact ⟨hpos, (spec_C3.1 rngW [] [] 1 4 (1 / 2) 0).2.2.1 hpos⟩

/-- Counterexample to claim C3 as stated: at `t = 1`, `delta = 1/4`, `p = 1/2`
the spec's cap `⌈log((t+1)²/delta)/log(1/p)⌉` equals 4, yet with draws that
never coincide the loop performs 5 attempts before stopping. -/
theorem claim_C3_cex :
    (rolfSample rngW [] [] (rolfMaxIter 1 (1 / 4) (1 / 2)) 0).2.2.1 = 5 ∧
    (rolfSample rngW [] [] (rolfMaxIter 1 (1 / 4) (1 / 2)) 0).1 ≠
      (rolfSample rngW [] [] (rolfMaxIter 1 (1 / 4) (1 / 2)) 0).2.1 ∧
    (⌈Real.log (((1 : ℝ) + 1) ^ 2 / ((1 / 4 : ℚ) : ℝ)) /
        Real.log (1 / ((1 / 2 : ℚ) : ℝ))⌉ : ℤ) = 4 := by
  refine ⟨?_, ?_, ceil_formula_t1⟩
  · rw [rolfMaxIter_t1_dq_phalf]
    decide
  · rw [rolfMaxIter_t1_dq_phalf]
    decide

/- ### Claim C5 -/

theorem sampleGo_const {G : Type} (rng : RNG G) (pdist cdist : List ℝ) (M : ℤ) (pa ca : ℤ)
    (hpa : ∀ g, (rng.choiceP g pdist).1 = pa)
    (hca : ∀ g, (rng.choiceP g cdist).1 = ca) (hne : pa ≠ ca) :
    ∀ (fuel : ℕ) (p c : ℤ) (n : ℕ) (g : G), p ≠ c →
      M + 2 ≤ (fuel : ℤ) + (n : ℤ) →
      (((n : ℤ) ≤ M → (sampleGo rng pdist cdist M fuel p c n g).1 = pa ∧
          (sampleGo rng pdist cdist M fuel p c n g).2.1 = ca) ∧
        (M < (n : ℤ) → sampleGo rng pdist cdist M fuel p c n g = (p, c, n, g))) := by
  intro fuel
  induction fuel with
  | zero =>
    intro p c n g hpc hbound
    constructor
    · intro hle
      omega
    · intro _
      rfl
  | succ f ih =>
    intro p c n g hpc hbound
    constructor
    · intro hle
      have hstep : sampleGo rng pdist cdist M (f + 1) p c n g =
          sampleGo rng pdist cdist M f (drawPair rng pdist cdist g).1
            (drawPair rng pdist cdist g).2.1 (n + 1) (drawPair rng pdist cdist g).2.2 := by
        simp only [sampleGo]
        rw [if_pos ⟨hpc, hle⟩]
      rw [hstep]
      have hpa' : (drawPair rng pdist cdist g).1 = pa := hpa g
      have hca' : (drawPair rng pdist cdist g).2.1 = ca := hca _
      have hne' : (drawPair rng pdist cdist g).1 ≠ (drawPair rng pdist cdist g).2.1 := by
        rw [hpa', hca']
        exact hne
      by_cases hc : ((n : ℕ) + 1 : ℤ) ≤ M
      · exact (ih (drawPair rng pdist cdist g).1 (drawPair rng pdist cdist g).2.1 (n + 1)
            (drawPair rng pdist cdist g).2.2 hne'
            (by push_cast; push_cast at hbound; omega)).1
          (by push_cast; omega)
      · have h2 := (ih (drawPair rng pdist cdist g).1 (drawPair rng pdist cdist g).2.1 (n + 1)
            (drawPair rng pdist cdist g).2.2 hne'
            (by push_cast; push_cast at hbound; omega)).2
          (by push_cast; omega)
        rw [h2]
        exact ⟨hpa', hca'⟩
    · intro hgt
      have hnle : ¬ ((n : ℤ) ≤ M) := by omega
      simp only [sampleGo]
      rw [if_neg (fun hh => hnle hh.2)]

theorem rolfSample_const {G : Type} (rng : RNG G) (pdist cdist : List ℝ) (M : ℤ) (g0 : G)
    (pa ca : ℤ) (hpa : ∀ g, (rng.choiceP g pdist).1 = pa)
    (hca : ∀ g, (rng.choiceP g cdist).1 = ca) (hne : pa ≠ ca) (hM : 0 ≤ M) :
    (rolfSample rng pdist cdist M g0).1 = pa ∧ (rolfSample rng pdist cdist M g0).2.1 = ca :=
  (sampleGo_const rng pdist cdist M pa ca hpa hca hne ((M + 1).toNat + 1) (-1) (-2) 0 g0
    (by decide) (by omega)).1 (by omega)

theorem rolfLassoChoose_ambient_irrel {G : Type} (rng : RNG G) (st : RoLFLassoState)
    (x : List (List ℚ)) (g g' : G) (h : st.explore = false) :
    rolfLassoChoose rng st x g = rolfLassoChoose rng st x g' := by
  unfold rolfLassoChoose rolfAhatL
  rw [h]
  exact rfl

theorem rolfRidgeChoose_ambient_irrel {G : Type} (rng : RNG G) (st : RoLFRidgeState)
    (x : List (List ℚ)) (g g' : G) (h : st.explore = false) :
    rolfRidgeChoose rng st x g = rolfRidgeChoose rng st x g' := by
  unfold rolfRidgeChoose rolfAhatR
  rw [h]
  exact rfl

/-- Claim C5 (amended): with `explore = false`, two runs of a `RoLFLasso` or
`RoLFRidge` instance with the same hyperparameters and `random_state` and the
same per-round inputs produce identical action sequences and match
indicators, whatever the ambient generator state of either process is: the
per-round matching randomness starts from `seed(random_state + t)`.  (With
`explore = true` the initial exploratory draws consult the ambient state
before the reseeding — see the counterexample.) -/
theorem spec_C5 :
    (∀ {G : Type} (rng : RNG G) (ext : LassoExt) (st : RoLFLassoState) (g g' : G) inputs,
      st.explore = false →
      rolfLassoRun rng ext st g inputs = rolfLassoRun rng ext st g' inputs) ∧
    (∀ {G : Type} (rng : RNG G) (ext : RidgeExt) (st : RoLFRidgeState) (g g' : G) inputs,
      st.explore = false →
      rolfRidgeRun rng ext st g inputs = rolfRidgeRun rng ext st g' inputs) := by
  constructor
  · intro G rng ext st g g' inputs h
    cases inputs with
    | nil => rfl
    | cons xr rest =>
      simp only [rolfLassoRun]
      rw [rolfLassoChoose_ambient_irrel rng st xr.1 g g' h]
  · intro G rng ext st g g' inputs h
    cases inputs with
    | nil => rfl
    | cons xr rest =>
      simp only [rolfRidgeRun]
      rw [rolfRidgeChoose_ambient_irrel rng st xr.1 g g' h]

/-- Closed instance of `spec_C5` for a concrete non-exploring policy. -/
theorem spec_C5_witness :
    polDet.explore = false ∧
    rolfLassoRun rngW extTriv polDet 0 inputsW = rolfLassoRun rngW extTriv polDet 1 inputsW :=
  ⟨rfl, spec_C5.1 rngW extTriv polDet 0 1 inputsW rfl⟩

theorem pseudoDist_ce0 : pseudoDist 2 0 (3 / 4) = [((3 / 4 : ℚ) : ℝ), 1 / 4] := by
  unfold pseudoDist
  norm_num [List.range_succ]

theorem pseudoDist_ce1 : pseudoDist 2 1 (3 / 4) = [(1 / 4 : ℝ), ((3 / 4 : ℚ) : ℝ)] := by
  unfold pseudoDist
  norm_num [List.range_succ]

theorem chosenDist_ce0 : chosenDist 2 0 1 = [(0 : ℝ), 1] := by
  unfold chosenDist
  norm_num [List.range_succ, Real.sqrt_one]

theorem chosenDist_ce1 : chosenDist 2 1 1 = [(1 : ℝ), 0] := by
  unfold chosenDist
  norm_num [List.range_succ, Real.sqrt_one]

theorem pickGreedy_p0 : pickGreedy (pseudoDist 2 0 (3 / 4)) = 0 := by
  unfold pickGreedy
  rw [pseudoDist_ce0]
  have hc : ¬ (([((3 / 4 : ℚ) : ℝ), 1 / 4].getD 0 0) < ([((3 / 4 : ℚ) : ℝ), 1 / 4].getD 1 0)) := by
    show ¬ (((3 / 4 : ℚ) : ℝ) < 1 / 4)
    push_cast
    norm_num
  rw [if_neg hc]

theorem pickGreedy_c0 : pickGreedy (chosenDist 2 0 1) = 1 := by
  unfold pickGreedy
  rw [chosenDist_ce0]
  have hc : ([(0 : ℝ), 1].getD 0 0) < ([(0 : ℝ), 1].getD 1 0) := by
    show (0 : ℝ) < 1
    norm_num
  rw [if_pos hc]

theorem pickGreedy_p1 : pickGreedy (pseudoDist 2 1 (3 / 4)) = 1 := by
  unfold pickGreedy
  rw [pseudoDist_ce1]
  have hc : ([(1 / 4 : ℝ), ((3 / 4 : ℚ) : ℝ)].getD 0 0) <
      ([(1 / 4 : ℝ), ((3 / 4 : ℚ) : ℝ)].getD 1 0) := by
    show (1 / 4 : ℝ) < ((3 / 4 : ℚ) : ℝ)
    push_cast
    norm_num
  rw [if_pos hc]

theorem pickGreedy_c1 : pickGreedy (chosenDist 2 1 1) = 0 := by
  unfold pickGreedy
  rw [chosenDist_ce1]
  have hc : ¬ (([(1 : ℝ), 0].getD 0 0) < ([(1 : ℝ), 0].getD 1 0)) := by
    show ¬ ((1 : ℝ) < 0)
    norm_num
  rw [if_neg hc]

theorem rolfMaxIter_ce5_nonneg : 0 ≤ rolfMaxIter 1 1 (3 / 4) := by
  unfold rolfMaxIter pyInt
  have h1 : (((1 : ℕ) : ℝ) + 1) ^ 2 / ((1 : ℚ) : ℝ) = 4 := by
    push_cast
    norm_num
  have h2 : (1 : ℝ) / ((3 / 4 : ℚ) : ℝ) = 4 / 3 := by
    push_cast
    norm_num
  rw [h1, h2]
  have hx : 0 ≤ Real.log 4 / Real.log (4 / 3) :=
    div_nonneg (Real.log_nonneg (by norm_num)) (le_of_lt (Real.log_pos (by norm_num)))
  rw [if_pos hx]
  exact Int.le_floor.mpr (by exact_mod_cast hx)

theorem choose_ce5_g0 : (rolfLassoChoose rngAmbient polCE5 xW 0).1 = 1 := by
  have hlink : (rolfLassoChoose rngAmbient polCE5 xW 0).1 =
      (rolfSample rngAmbient (pseudoDist 2 0 (3 / 4)) (chosenDist 2 0 1)
        (rolfMaxIter 1 1 (3 / 4)) (rngAmbient.seedFn 1)).2.1 := rfl
  rw [hlink]
  exact (rolfSample_const rngAmbient (pseudoDist 2 0 (3 / 4)) (chosenDist 2 0 1)
    (rolfMaxIter 1 1 (3 / 4)) (rngAmbient.seedFn 1) 0 1
    (fun g => pickGreedy_p0) (fun g => pickGreedy_c0)
    (by decide) rolfMaxIter_ce5_nonneg).2

theorem choose_ce5_g1 : (rolfLassoChoose rngAmbient polCE5 xW 1).1 = 0 := by
  have hlink : (rolfLassoChoose rngAmbient polCE5 xW 1).1 =
      (rolfSample rngAmbient (pseudoDist 2 1 (3 / 4)) (chosenDist 2 1 1)
        (rolfMaxIter 1 1 (3 / 4)) (rngAmbient.seedFn 1)).2.1 := rfl
  rw [hlink]
  exact (rolfSample_const rngAmbient (pseudoDist 2 1 (3 / 4)) (chosenDist 2 1 1)
    (rolfMaxIter 1 1 (3 / 4)) (rngAmbient.seedFn 1) 1 0
    (fun g => pickGreedy_p1) (fun g => pickGreedy_c1)
    (by decide) rolfMaxIter_ce5_nonneg).2

/-- Counterexample to claim C5 as stated: with `explore = true` and
`init_explore = 1`, the round-1 reference action is drawn from the ambient
generator before the per-round reseeding.  Two runs of the same policy
(identical hyperparameters, `random_state` and inputs) whose processes start
with ambient generator states 0 and 1 return different round-1 actions. -/
theorem claim_C5_cex :
    (rolfLassoRun rngAmbient extTriv polCE5 0 inputsW).map Prod.fst ≠
      (rolfLassoRun rngAmbient extTriv polCE5 1 inputsW).map Prod.fst := by
  have hA : (rolfLassoRun rngAmbient extTriv polCE5 0 inputsW).map Prod.fst = [1] := by
    simp only [inputsW, rolfLassoRun, List.map_cons, List.map_nil]
    rw [choose_ce5_g0]
  have hB : (rolfLassoRun rngAmbient extTriv polCE5 1 inputsW).map Prod.fst = [0] := by
    simp only [inputsW, rolfLassoRun, List.map_cons, List.map_nil]
    rw [choose_ce5_g1]
  rw [hA, hB]
  simp
